import Mathlib

/-!
Verification of the image selection and deduplication pipeline of the
`reddit-background` repository (`background/reddit_background.py` and
`background/imgur/imgur_loader.py`).

The Python code is shallowly embedded:

* the per-display download directory is a finite association list
  `List (String × String)` from filename to content hash, mirroring the
  dictionary built by `Desktop._get_downloaded_images` (lines 516-525);
* `Desktop._images_different` (lines 531-578) becomes `imagesDifferent`,
  a pure function from the directory state and the candidate's filename
  and content hash to the returned `(path, bool)` pair and the directory
  state after the move;
* `BestMatchImageChooser.sort` (lines 274-416) becomes `bestMatchSort`:
  Python floats are modelled as rationals, the `random.random()` jitter
  draw and the logarithmic reddit-score component (which need a real
  `log1p`) are per-image inputs, while the aspect-ratio and resolution
  components are computed from the dimensions as in the source;
* `Desktop.fetch_backgrounds` (lines 581-612) becomes `fetchLoop` /
  `fetchBackgroundsBest`; downloads are modelled as succeeding, since
  every claim under study concerns the classification and ordering
  logic, and a raised scoring error is modelled as `Option.none`;
* `slugify` (lines 698-710) and `Image.filename` (lines 756-767) are
  embedded over lists of Unicode code points (`List Nat`); the
  `unicodedata.normalize('NFKD', ...)` step is not modelled and
  `encode('ascii', 'ignore')` is modelled as dropping all code points
  above 127, which is exact on ASCII input; `urlparse` is not modelled,
  the URL path is taken as an input.  The `$` anchor of the regex
  `.*?([0-9]+)$` is modelled as end-of-string; its match-before-a-final-
  newline behaviour is not modelled (filenames are assumed newline-free);
* the Imgur loader (`background/imgur/imgur_loader.py`) becomes
  functions over an abstract HTTP outcome, with `Except Unit` modelling
  a raised exception; the in-place `thumbnail_link` string augmentation
  of album entries does not affect control flow and is not modelled.
-/

namespace RedditBackground

/-! ## Filename helpers: `os.path.splitext` and the trailing-number regex -/

/-- `isPrefixSeq p l` is true when `p` is a prefix of `l`
(decidable helper for Python's substring test). -/
def isPrefixSeq : List Char → List Char → Bool
  | [], _ => true
  | _ :: _, [] => false
  | a :: as, b :: bs => a == b && isPrefixSeq as bs

/-- `containsSeq p l` is true when `p` occurs as a contiguous subsequence
of `l` — Python's `p in l` on strings (line 552). -/
def containsSeq (p : List Char) : List Char → Bool
  | [] => isPrefixSeq p []
  | l@(_ :: rest) => isPrefixSeq p l || containsSeq p rest

/-- `os.path.splitext` restricted to plain filenames (no directory
separator, the only use in `_images_different`, lines 549-551): the
extension starts at the last dot, unless every character before that dot
is itself a dot. -/
def splitext (p : List Char) : List Char × List Char :=
  if p.contains '.' then
    let rev := p.reverse
    let afterRev := rev.takeWhile (fun c => !(c == '.'))
    let stem := (rev.drop (afterRev.length + 1)).reverse
    if stem.any (fun c => !(c == '.')) then (stem, '.' :: afterRev.reverse)
    else (p, [])
  else (p, [])

/-- Numeric value of a list of decimal digit characters (Python `int`). -/
def digitsVal (ds : List Char) : Nat :=
  ds.foldl (fun n c => 10 * n + (c.toNat - 48)) 0

/-- The maximal run of trailing decimal digits of a stem. -/
def trailingDigits (stem : List Char) : List Char :=
  (stem.reverse.takeWhile Char.isDigit).reverse

/-- `re.match('.*?([0-9]+)$', key_title)` (line 557): `some n` when the
stem ends in digits whose maximal trailing run has value `n`. -/
def trailingNumber (stem : List Char) : Option Nat :=
  let ds := trailingDigits stem
  if ds.isEmpty then none else some (digitsVal ds)

/-- `image_numbers.sort()` followed by `image_numbers[-1]` on a nonempty
list of naturals is its maximum (lines 564-566). -/
def maxList (l : List Nat) : Nat := l.foldl Nat.max 0

/-- The fuzzy stem match of line 552: the candidate's stem `title` occurs
inside the stem of the existing filename `key`. -/
def stemMatches (title : List Char) (key : String) : Bool :=
  containsSeq title (splitext key.data).1

/-- The renamed-variant filename of lines 566-572: `stem + "1" + ext`
when the highest collected suffix is `0`, else `stem + str(digit+1) + ext`. -/
def renamedName (st ex : List Char) (digit : Nat) : String :=
  if digit = 0 then String.mk st ++ "1" ++ String.mk ex
  else String.mk st ++ toString (digit + 1) ++ String.mk ex

/-! ## `Desktop._images_different` (lines 531-578) -/

/-- `Desktop._images_different`, embedded as a pure function.  The
directory is the filename-to-hash map rebuilt from disk on each property
access; `filename` and `hash` are the candidate's target filename and
the md5 digest of its downloaded bytes.  Returns the `(path, bool)` pair
returned by the Python method together with the directory contents after
the `shutil.move`:

* filename absent (line 537): move into place, return `(new_path, False)`;
* filename present and some stem-matching entry has a different hash
  (`duplicate_not_found`, lines 545-576): move to the renumbered name,
  return `(new_path, True)`;
* filename present and every stem-matching entry has an equal hash
  (line 578): the scratch file is left behind, return `('', False)`. -/
def imagesDifferent (dirPath : String) (dir : List (String × String))
    (filename hash : String) : (String × Bool) × List (String × String) :=
  if dir.any (fun kv => kv.1 == filename) then
    let st := (splitext filename.data).1
    let flagged := dir.filter (fun kv => stemMatches st kv.1 && kv.2 != hash)
    if flagged.isEmpty then
      (("", false), dir)
    else
      let digit := maxList (flagged.map (fun kv => (trailingNumber (splitext kv.1.data).1).getD 0))
      let newFilename := renamedName st (splitext filename.data).2 digit
      ((dirPath ++ "/" ++ newFilename, true), dir ++ [(newFilename, hash)])
  else
    ((dirPath ++ "/" ++ filename, false), dir ++ [(filename, hash)])

/-- The path the renamed-variant branch produces, written from the
spec's words: the highest numeric suffix over *all* stem-matching
entries (no trailing digit counting as 0), incremented, between the
candidate's stem and extension. -/
def renameTarget (dirPath : String) (dir : List (String × String))
    (filename : String) : String :=
  let st := (splitext filename.data).1
  let suffixes := (dir.filter (fun kv => stemMatches st kv.1)).map
    (fun kv => (trailingNumber (splitext kv.1.data).1).getD 0)
  dirPath ++ "/" ++ renamedName st (splitext filename.data).2 (maxList suffixes)

/-! ## Helper lemmas about the dedup model -/

theorem isPrefixSeq_self (l : List Char) : isPrefixSeq l l = true := by
  induction l with
  | nil => rfl
  | cons a as ih => simp [isPrefixSeq, ih]

theorem containsSeq_self (l : List Char) : containsSeq l l = true := by
  cases l with
  | nil => rfl
  | cons a as => simp [containsSeq, isPrefixSeq_self]

theorem stemMatches_self (filename : String) :
    stemMatches (splitext filename.data).1 filename = true := by
  simp [stemMatches, containsSeq_self]

theorem filter_congr_on {α : Type} (l : List α) (p q : α → Bool)
    (h : ∀ x ∈ l, p x = q x) : l.filter p = l.filter q := by
  induction l with
  | nil => rfl
  | cons a t ih =>
    have ha := h a (by simp)
    have ht : ∀ x ∈ t, p x = q x := fun x hx => h x (by simp [hx])
    simp only [List.filter, ha, ih ht]

theorem filter_eq_nil_of_false {α : Type} (l : List α) (p : α → Bool)
    (h : ∀ x ∈ l, p x = false) : l.filter p = [] := by
  induction l with
  | nil => rfl
  | cons a t ih =>
    have ha := h a (by simp)
    have ht : ∀ x ∈ t, p x = false := fun x hx => h x (by simp [hx])
    simp only [List.filter, ha, ih ht]

theorem isEmpty_false_of_mem {α : Type} {l : List α} {x : α} (h : x ∈ l) :
    l.isEmpty = false := by
  cases l with
  | nil => cases h
  | cons a t => rfl

/-! ## Claims C1 and C5: the duplicate / renamed-variant classification -/

/-- C1, counterexample.  The directory holds `sunset.jpg` with hash `h1`
and `sunset1.jpg` with hash `h2`; the candidate is `sunset.jpg` with
hash `h1`.  The first conjunct shows an existing file stem-matches the
candidate and (by the literals) its hash equals the candidate's, so the
claim demands classification as Duplicate, i.e. the result `("", False)`
with no move.  The code instead renames the candidate to `sunset2.jpg`
and moves it into the directory. -/
theorem spec_C1_cex :
    stemMatches (splitext ("sunset.jpg" : String).data).1 "sunset.jpg" = true
    ∧ imagesDifferent "D" [("sunset.jpg", "h1"), ("sunset1.jpg", "h2")] "sunset.jpg" "h1"
        = (("D/sunset2.jpg", true),
           [("sunset.jpg", "h1"), ("sunset1.jpg", "h2"), ("sunset2.jpg", "h1")])
    ∧ (("D/sunset2.jpg", true) : String × Bool) ≠ ("", false) :=
  ⟨by decide, by decide, by decide⟩

/-- C1, amended.  A candidate is classified Duplicate — scratch file not
moved into the directory, result `('', False)`, directory unchanged —
exactly when its exact filename is already present and *every*
stem-matching file's hash equals the candidate's hash; a single
stem-matching file with a different hash forces the renamed-variant
branch instead, even when another stem-matching file's hash matches. -/
theorem spec_C1_amended (dirPath : String) (dir : List (String × String))
    (filename hash : String)
    (hmem : dir.any (fun kv => kv.1 == filename) = true)
    (hsame : ∀ kv ∈ dir, stemMatches (splitext filename.data).1 kv.1 = true → kv.2 = hash) :
    imagesDifferent dirPath dir filename hash = (("", false), dir) := by
  have hnil : dir.filter
      (fun kv => stemMatches (splitext filename.data).1 kv.1 && kv.2 != hash) = [] := by
    apply filter_eq_nil_of_false
    intro kv hkv
    by_cases hm : stemMatches (splitext filename.data).1 kv.1 = true
    · have heq := hsame kv hkv hm
      simp [hm, heq]
    · simp only [Bool.not_eq_true] at hm
      simp [hm]
  simp [imagesDifferent, hmem, hnil]

/-- C1 witness: an exact re-download (same name, same bytes) of the only
file in the directory is reported as a duplicate. -/
theorem spec_C1_witness :
    ([("sunset.jpg", "h1")] : List (String × String)).any
        (fun kv => kv.1 == "sunset.jpg") = true
    ∧ imagesDifferent "D" [("sunset.jpg", "h1")] "sunset.jpg" "h1"
        = (("", false), [("sunset.jpg", "h1")]) :=
  ⟨by decide, spec_C1_amended "D" _ "sunset.jpg" "h1" (by decide) (by decide)⟩

/-- C5, counterexample.  The claim's hypothesis asks only that the
candidate's stem match existing files: with the directory holding just
`sunset1.jpg` (hash `h2`), the candidate `sunset.jpg` (hash `h1`)
stem-matches it and no hash is equal, so the claim demands the
renamed-variant treatment (target `sunset2.jpg`).  But the code's
renamed-variant branch is gated on the *exact* filename being present
(line 537): the candidate is classified New and moved to `sunset.jpg`. -/
theorem spec_C5_cex :
    stemMatches (splitext ("sunset.jpg" : String).data).1 "sunset1.jpg" = true
    ∧ ("h2" : String) ≠ "h1"
    ∧ imagesDifferent "D" [("sunset1.jpg", "h2")] "sunset.jpg" "h1"
        = (("D/sunset.jpg", false), [("sunset1.jpg", "h2"), ("sunset.jpg", "h1")])
    ∧ ("D/sunset.jpg" : String) ≠ "D/sunset2.jpg" :=
  ⟨by decide, by decide, by decide, by decide⟩

/-- C5, amended.  When the candidate's exact filename is present in the
directory and none of the stem-matching files' hashes equals the
candidate's hash, the candidate is moved to
`stem + (highest numeric suffix among matching stems, stems without
trailing digits counting as 0, incremented by one) + extension` and the
call reports `True` — so a second distinct-content `sunset.jpg` is
placed as `sunset1.jpg` and a third as `sunset2.jpg`. -/
theorem spec_C5_amended (dirPath : String) (dir : List (String × String))
    (filename hash : String)
    (hmem : dir.any (fun kv => kv.1 == filename) = true)
    (hdiff : ∀ kv ∈ dir, stemMatches (splitext filename.data).1 kv.1 = true → kv.2 ≠ hash) :
    (imagesDifferent dirPath dir filename hash).1
      = (renameTarget dirPath dir filename, true) := by
  have hfilter : dir.filter
        (fun kv => stemMatches (splitext filename.data).1 kv.1 && kv.2 != hash)
      = dir.filter (fun kv => stemMatches (splitext filename.data).1 kv.1) := by
    apply filter_congr_on
    intro kv hkv
    by_cases hm : stemMatches (splitext filename.data).1 kv.1 = true
    · have hne := hdiff kv hkv hm
      simp [hm, hne]
    · simp only [Bool.not_eq_true] at hm
      simp [hm]
  obtain ⟨kv, hkvmem, hkveq⟩ := List.any_eq_true.mp hmem
  have hkv1 : kv.1 = filename := by simpa using hkveq
  have hmemfilter : kv ∈ dir.filter
      (fun kv => stemMatches (splitext filename.data).1 kv.1) := by
    refine List.mem_filter.mpr ⟨hkvmem, ?_⟩
    rw [hkv1]
    exact stemMatches_self filename
  have hne := isEmpty_false_of_mem hmemfilter
  simp [imagesDifferent, hmem, hfilter, hne, renameTarget]

/-- C5 witness: a second distinct-content `sunset.jpg` is placed as
`sunset1.jpg`. -/
theorem spec_C5_witness :
    (imagesDifferent "D" [("sunset.jpg", "h1")] "sunset.jpg" "h2").1
        = (renameTarget "D" [("sunset.jpg", "h1")] "sunset.jpg", true)
    ∧ renameTarget "D" [("sunset.jpg", "h1")] "sunset.jpg" = "D/sunset1.jpg" :=
  ⟨spec_C5_amended "D" _ "sunset.jpg" "h2" (by decide) (by decide), by decide⟩

/-! ## The `Image` record and `BestMatchImageChooser.sort` (lines 274-416)

Python floats are modelled as rationals.  `filename` is the value of
the `Image.filename` property (derived from the title, modelled
separately over code points below) and `hash` the md5 digest of the
downloaded bytes.  `jitterComp` is the `random.random()` draw of
`_score_jitter` and `redditComp` the value `_score_reddit_score`
computes from `log1p` of the batch's scores; both are inputs here since
they are random resp. transcendental, while the aspect-ratio and
resolution components are computed from the dimensions as in the
source. -/

structure Image where
  filename : String := ""
  hash : String := ""
  width : ℚ := 0
  height : ℚ := 0
  jitterComp : ℚ := 0
  redditComp : ℚ := 0
  urlStored : String := ""
  thumbStored : String := ""
  score : ℚ := 0
  filePath : Option String := none
deriving DecidableEq

/-- Line 83. -/
def WEIGHT_ASPECT_RATIO : ℚ := 1

/-- Line 84. -/
def WEIGHT_RESOLUTION : ℚ := 1

/-- Line 85. -/
def WEIGHT_JITTER : ℚ := 1/4

/-- Line 86. -/
def WEIGHT_REDDIT_SCORE : ℚ := 1

/-- `_score_aspect_ratio` (lines 298-316). -/
def scoreAspect (dw dh : ℚ) (img : Image) : ℚ :=
  let ia := img.width / img.height
  let da := dw / dh
  if ia > da then da / ia else ia / da

/-- `_score_resolution` (lines 318-337). -/
def scoreRes (dw dh : ℚ) (img : Image) : ℚ :=
  let ip := img.width * img.height
  let dp := dw * dh
  if ip > dp then 1 else ip / dp

/-- The weighted `score_parts` list of lines 378-390. -/
def scoreParts (a r j p : ℚ) : List ℚ :=
  [ WEIGHT_ASPECT_RATIO * a, WEIGHT_RESOLUTION * r, WEIGHT_JITTER * j,
    WEIGHT_REDDIT_SCORE * p]

/-- Line 391: `image.score = float(sum(score_parts)) / len(score_parts)`. -/
def computeScore (a r j p : ℚ) : ℚ :=
  (scoreParts a r j p).sum / ((scoreParts a r j p).length : ℚ)

/-- The per-image score assignment of the loop at lines 376-391. -/
def assignScores (dw dh : ℚ) (img : Image) : Image :=
  { img with
    score := computeScore (scoreAspect dw dh img) (scoreRes dw dh img)
      img.jitterComp img.redditComp }

/-- The sort key of line 394: ascending by `score`. -/
def imgLE (a b : Image) : Prop := a.score ≤ b.score

instance : DecidableRel imgLE := fun a b => inferInstanceAs (Decidable (a.score ≤ b.score))

/-- `BestMatchImageChooser.sort` on a nonempty batch: score every image,
then sort ascending (stable, like Python's `list.sort`) so the best
images go last (line 394). -/
def bestMatchSortList (dw dh : ℚ) (imgs : List Image) : List Image :=
  List.insertionSort imgLE (imgs.map (assignScores dw dh))

/-- `BestMatchImageChooser.sort` including its behaviour on an empty
batch: line 372 computes `min(raw_reddit_scores)` which raises
`ValueError` on an empty list, modelled as `none`. -/
def bestMatchSort (dw dh : ℚ) (imgs : List Image) : Option (List Image) :=
  if imgs.isEmpty then none else some (bestMatchSortList dw dh imgs)

/-! ## `Desktop.fetch_backgrounds` (lines 581-612) -/

/-- The selection loop of lines 589-612, with downloads modelled as
succeeding.  Faithful to the `try/except URLOpenError/else` structure:
when no exception is raised the `else` block runs, so *every* processed
candidate is appended to `result_images` and `count` is incremented —
including candidates whose `_images_different` call returned
`('', False)` (the "already downloaded, skipping..." branch only
logs). -/
def fetchLoop (dirPath : String) :
    List (String × String) → List Image → Nat → Nat → List Image × List (String × String)
  | dir, [], _, _ => ([], dir)
  | dir, img :: rest, count, imageCount =>
    if imageCount ≤ count then ([], dir)
    else
      let step := imagesDifferent dirPath dir img.filename img.hash
      let res := fetchLoop dirPath step.2 rest (count + 1) imageCount
      ({ img with filePath := some step.1.1 } :: res.1, res.2)

/-- `fetch_backgrounds` with the `bestmatch` chooser configured: sort
(raising on an empty batch), then iterate the sorted list from the
front — index 0 first, which by line 394 is the *least* desirable
image.  `none` models a raised exception. -/
def fetchBackgroundsBest (dw dh : ℚ) (dirPath : String)
    (dir : List (String × String)) (imgs : List Image) (imageCount : Nat) :
    Option (List Image × List (String × String)) :=
  (bestMatchSort dw dh imgs).map (fun sorted => fetchLoop dirPath dir sorted 0 imageCount)

/-! ## Claims C2, C3, C4: the selection loop

Sample data for the end-to-end scenarios.  The desktop is 16x9 and all
candidates share its dimensions, so the aspect-ratio and resolution
components are both 1; the reddit component is 0 and the jitter draws
order the pool: score = (1 + 1 + jitter/4 + 0)/4. -/

def c2img (nm h : String) (j : ℚ) : Image :=
  { filename := nm, hash := h, width := 16, height := 9, jitterComp := j }

def c2scored (nm h : String) (j s : ℚ) : Image :=
  { filename := nm, hash := h, width := 16, height := 9, jitterComp := j, score := s }

/-- Pool of 5 for the C2 scenario, in arbitrary arrival order.  Rank k
(1-indexed from most desirable) is the image `rk.jpg`; ranks 5 and 3 are
duplicates of the two files already in `c2dir`. -/
def c2pool : List Image :=
  [c2img "r1.jpg" "h1" (4/5), c2img "r3.jpg" "h3" (2/5), c2img "r5.jpg" "h5" 0,
   c2img "r2.jpg" "h2" (3/5), c2img "r4.jpg" "h4" (1/5)]

def c2dir : List (String × String) := [("r5.jpg", "h5"), ("r3.jpg", "h3")]

/-- C2.  The claim says duplicates are skipped without incrementing the
accepted count and that this pool returns exactly the rank-1, 2 and 4
images.  The code instead iterates the ascending-sorted list from the
front (least desirable first) and appends *every* processed candidate —
the `else` of the `try/except` at lines 595-606 runs whenever no
exception was raised, so the `('', False)` duplicate result only
produces a log line.  With `wanted_count = 3` the pipeline returns the
rank-5, 4 and 3 images, the two duplicates among them carrying
`file_path = ''`. -/
theorem spec_C2_bug :
    (bestMatchSortList 16 9 c2pool).map Image.filename
      = ["r5.jpg", "r4.jpg", "r3.jpg", "r2.jpg", "r1.jpg"]
    ∧ (fetchBackgroundsBest 16 9 "D" c2dir c2pool 3).map (fun r => r.1.map Image.filename)
      = some ["r5.jpg", "r4.jpg", "r3.jpg"]
    ∧ (fetchBackgroundsBest 16 9 "D" c2dir c2pool 3).map (fun r => r.1.map Image.filePath)
      = some [some "", some "D/r4.jpg", some ""] := by
  have hsort : bestMatchSortList 16 9 c2pool
      = [c2scored "r5.jpg" "h5" 0 (1/2), c2scored "r4.jpg" "h4" (1/5) (41/80),
         c2scored "r3.jpg" "h3" (2/5) (21/40), c2scored "r2.jpg" "h2" (3/5) (43/80),
         c2scored "r1.jpg" "h1" (4/5) (11/20)] := by
    norm_num [bestMatchSortList, assignScores, computeScore, scoreParts, scoreAspect, scoreRes,
      WEIGHT_ASPECT_RATIO, WEIGHT_RESOLUTION, WEIGHT_JITTER, WEIGHT_REDDIT_SCORE,
      List.insertionSort, List.orderedInsert, imgLE, c2pool, c2img, c2scored, Image.mk.injEq]
  have hpipe : fetchBackgroundsBest 16 9 "D" c2dir c2pool 3
      = some (fetchLoop "D" c2dir (bestMatchSortList 16 9 c2pool) 0 3) := rfl
  refine ⟨by rw [hsort]; decide, ?_, ?_⟩
  · rw [hpipe, hsort]; decide
  · rw [hpipe, hsort]; decide

def c3dir : List (String × String) := [("x.jpg", "hx")]

def c3pool : List Image := [{ filename := "x.jpg", hash := "hx", width := 16, height := 9 }]

/-- C3.  The claim says every returned `ImageCandidate` has a non-null,
non-empty `file_path` naming a file on disk.  A candidate whose bytes
already exist under its filename gets `('', False)` from
`_images_different` — no file is moved into the directory — yet it is
still appended to the result with `file_path = ''`, which names no
file (the directory is returned unchanged). -/
theorem spec_C3_bug :
    (fetchBackgroundsBest 16 9 "D" c3dir c3pool 1).map (fun r => r.1.map Image.filePath)
      = some [some ""]
    ∧ (fetchBackgroundsBest 16 9 "D" c3dir c3pool 1).map (fun r => r.1.map Image.filename)
      = some ["x.jpg"]
    ∧ (fetchBackgroundsBest 16 9 "D" c3dir c3pool 1).map (fun r => r.2) = some c3dir :=
  ⟨by decide, by decide, by decide⟩

def c4low : Image := { filename := "low.jpg", hash := "hl", width := 16, height := 9 }

def c4high : Image :=
  { filename := "high.jpg", hash := "hh", width := 16, height := 9, jitterComp := 4/5 }

/-- C4.  The sort half of the claim holds (ascending by composite
score, most desirable last), but the selection loop does not consume
from the most-desirable end: `for image in images` (line 592) starts at
index 0, the *least* desirable image.  With two candidates of scores
1/2 < 11/20 and `wanted_count = 1`, the accepted image is the
lower-scored one, contradicting "most desirable selected first". -/
theorem spec_C4_bug :
    (bestMatchSortList 16 9 [c4high, c4low]).map Image.filename = ["low.jpg", "high.jpg"]
    ∧ (bestMatchSortList 16 9 [c4high, c4low]).map Image.score = [1/2, 11/20]
    ∧ ((1 : ℚ)/2 < 11/20)
    ∧ (fetchBackgroundsBest 16 9 "D" [] [c4high, c4low] 1).map (fun r => r.1.map Image.filename)
      = some ["low.jpg"] := by
  have hsort : bestMatchSortList 16 9 [c4high, c4low]
      = [{ filename := "low.jpg", hash := "hl", width := 16, height := 9, score := 1/2 },
         { filename := "high.jpg", hash := "hh", width := 16, height := 9,
           jitterComp := 4/5, score := 11/20 }] := by
    norm_num [bestMatchSortList, assignScores, computeScore, scoreParts, scoreAspect, scoreRes,
      WEIGHT_ASPECT_RATIO, WEIGHT_RESOLUTION, WEIGHT_JITTER, WEIGHT_REDDIT_SCORE,
      List.insertionSort, List.orderedInsert, imgLE, c4low, c4high, Image.mk.injEq]
  have hpipe : fetchBackgroundsBest 16 9 "D" [] [c4high, c4low] 1
      = some (fetchLoop "D" [] (bestMatchSortList 16 9 [c4high, c4low]) 0 1) := rfl
  refine ⟨?_, ?_, by norm_num, ?_⟩
  · rw [hsort]; decide
  · rw [hsort]; rfl
  · rw [hpipe, hsort]; decide

/-! ## Claims C6 and C7: the composite-score formula and the empty batch -/

/-- C6.  For every scored candidate, the composite score is the sum of
the weighted components (weights 1.0, 1.0, 0.25, 1.0) divided by the
fixed part count 4 — not by the sum of the weights, which is 13/4 ≠ 4. -/
theorem spec_C6 :
    (∀ a r j p : ℚ, computeScore a r j p = (1 * a + 1 * r + 1/4 * j + 1 * p) / 4)
    ∧ WEIGHT_ASPECT_RATIO + WEIGHT_RESOLUTION + WEIGHT_JITTER + WEIGHT_REDDIT_SCORE ≠ 4
    ∧ ∀ dw dh : ℚ, ∀ imgs : List Image, ∀ img ∈ bestMatchSortList dw dh imgs,
        img.score = computeScore (scoreAspect dw dh img) (scoreRes dw dh img)
          img.jitterComp img.redditComp := by
  refine ⟨?_, ?_, ?_⟩
  · intro a r j p
    simp [computeScore, scoreParts, WEIGHT_ASPECT_RATIO, WEIGHT_RESOLUTION,
      WEIGHT_JITTER, WEIGHT_REDDIT_SCORE]
    ring
  · norm_num [ WEIGHT_ASPECT_RATIO, WEIGHT_RESOLUTION, WEIGHT_JITTER, WEIGHT_REDDIT_SCORE]
  · intro dw dh imgs img hmem
    have hperm := List.perm_insertionSort imgLE (imgs.map (assignScores dw dh))
    have hmem2 : img ∈ imgs.map (assignScores dw dh) := hperm.mem_iff.mp hmem
    obtain ⟨a, ha, rfl⟩ := List.mem_map.mp hmem2
    rfl

def c6img : Image := { filename := "w.jpg", hash := "hw", width := 16, height := 9 }

/-- C6 witness: a concrete scored batch member satisfies the formula. -/
theorem spec_C6_witness :
    assignScores 16 9 c6img ∈ bestMatchSortList 16 9 [c6img]
    ∧ (assignScores 16 9 c6img).score
      = computeScore (scoreAspect 16 9 (assignScores 16 9 c6img))
          (scoreRes 16 9 (assignScores 16 9 c6img))
          (assignScores 16 9 c6img).jitterComp (assignScores 16 9 c6img).redditComp := by
  have hmem : assignScores 16 9 c6img ∈ bestMatchSortList 16 9 [c6img] := by
    simp [bestMatchSortList, List.insertionSort, List.orderedInsert]
  exact ⟨hmem, spec_C6.2.2 16 9 [c6img] _ hmem⟩

/-- C7, counterexample.  With the `bestmatch` chooser configured, an
empty candidate list (e.g. after a network failure made
`Subreddit.fetch_images` return `[]`) does not make `fetch_backgrounds`
return an empty result: `BestMatchImageChooser.sort` evaluates
`min(raw_reddit_scores)` on an empty list (line 372), raising
`ValueError` — modelled as `none` — so the caller sees an exception,
not zero images. -/
theorem spec_C7_cex : fetchBackgroundsBest 16 9 "D" [] [] 3 = none := rfl

/-- C7, amended.  On an empty candidate list the selection loop itself
trivially yields nothing (so with the default `random` chooser, which
shuffles in place without error, the caller sees zero images), but with
the `bestmatch` chooser the SCORE stage raises on the empty batch and
`fetch_backgrounds` propagates the error instead of returning `[]`. -/
theorem spec_C7_amended :
    (∀ (dirPath : String) (dir : List (String × String)) (n : Nat),
        fetchLoop dirPath dir [] 0 n = ([], dir))
    ∧ (∀ dw dh : ℚ, bestMatchSort dw dh [] = none)
    ∧ (∀ (dw dh : ℚ) (dirPath : String) (dir : List (String × String)) (n : Nat),
        fetchBackgroundsBest dw dh dirPath dir [] n = none) :=
  ⟨fun _ _ _ => rfl, fun _ _ => rfl, fun _ _ _ _ _ => rfl⟩

/-! ## `slugify` (lines 698-710) and `Image.filename` (lines 756-767)

Embedded over lists of Unicode code points.  The `NFKD` normalization
is not modelled; `encode('ascii', 'ignore')` is modelled as dropping
every code point above 127 (exact on ASCII input).  On the
already-ASCII string, the regex class `\w` is `[A-Za-z0-9_]` and `\s`
is `[ \t\n\r\x0b\x0c]`. -/

/-- `encode('ascii', 'ignore')` (line 704), modelled on code points. -/
def asciiIgnore (l : List Nat) : List Nat := l.filter (fun c => decide (c < 128))

/-- The regex class `\w` on ASCII: letters, digits and underscore. -/
def isWordCp (c : Nat) : Bool :=
  (decide (65 ≤ c) && decide (c ≤ 90)) || (decide (97 ≤ c) && decide (c ≤ 122))
    || (decide (48 ≤ c) && decide (c ≤ 57)) || c == 95

/-- The regex class `\s` on ASCII. -/
def isSpaceCp (c : Nat) : Bool :=
  c == 32 || c == 9 || c == 10 || c == 13 || c == 11 || c == 12

/-- A character surviving `re.sub('[^\w\s-]', '', value)` (line 708). -/
def keepSlugChar (c : Nat) : Bool := isWordCp c || isSpaceCp c || c == 45

/-- `str.strip()` restricted to the characters present after the first
substitution (word characters, regex whitespace and hyphens). -/
def stripSpaces (l : List Nat) : List Nat :=
  ((l.dropWhile isSpaceCp).reverse.dropWhile isSpaceCp).reverse

/-- `str.lower()` on ASCII code points. -/
def toLowerCp (c : Nat) : Nat := if 65 ≤ c ∧ c ≤ 90 then c + 32 else c

/-- The regex class `[-\s]`. -/
def isDashOrSpaceCp (c : Nat) : Bool := c == 45 || isSpaceCp c

/-- `re.sub('[-\s]+', '-', value)` (line 709): every maximal run of
hyphens and whitespace becomes a single hyphen (code point 45). -/
def collapseRuns : List Nat → List Nat
  | [] => []
  | c :: rest =>
    let tail := collapseRuns rest
    if isDashOrSpaceCp c then
      if tail.head? == some 45 then tail else 45 :: tail
    else c :: tail

/-- `slugify` (lines 698-710): ASCII-restrict, keep `[\w\s-]`, strip,
lower-case, collapse `[-\s]+` runs to single hyphens. -/
def slugify (title : List Nat) : List Nat :=
  collapseRuns ((stripSpaces ((asciiIgnore title).filter keepSlugChar)).map toLowerCp)

/-- `Image.display_title` (lines 745-750): titles longer than 64
characters are truncated to 61 plus `'...'` (code point 46 thrice). -/
def displayTitle (title : List Nat) : List Nat :=
  if title.length ≤ 64 then title else title.take 61 ++ [46, 46, 46]

/-- The characters of `url_path` after its last dot —
`url_path.rsplit('.', 1)[1]` when the path contains a dot (line 762). -/
def extAfterLastDot (p : List Nat) : List Nat :=
  (p.reverse.takeWhile (fun c => !(c == 46))).reverse

/-- The extension appended by `Image.filename`: one dot plus the
URL path's last-dot suffix, or nothing when the path has no dot
(the `IndexError` branch of lines 763-766). -/
def extTail (p : List Nat) : List Nat :=
  if p.contains 46 then 46 :: extAfterLastDot p else []

/-- `Image.filename` (lines 756-767): the slug of the display title,
plus the extension taken from the (parsed) URL path. -/
def imageFilename (title urlPath : List Nat) : List Nat :=
  let fname := slugify (displayTitle title)
  if urlPath.contains 46 then fname ++ 46 :: extAfterLastDot urlPath else fname

/-- The amended character set of the slug: lower-case letters, digits,
hyphen — and underscore, which `\w` retains. -/
def slugAllowed (c : Nat) : Prop :=
  (97 ≤ c ∧ c ≤ 122) ∨ (48 ≤ c ∧ c ≤ 57) ∨ c = 45 ∨ c = 95

/-! ### Helper lemmas for the slug character set -/

theorem mem_dropWhile_mem {α : Type} (p : α → Bool) (l : List α) :
    ∀ x ∈ l.dropWhile p, x ∈ l := by
  induction l with
  | nil => intro x hx; cases hx
  | cons a t ih =>
    intro x hx
    by_cases ha : p a = true
    · simp only [List.dropWhile, ha] at hx
      exact List.mem_cons_of_mem _ (ih x hx)
    · simp only [Bool.not_eq_true] at ha
      simp only [List.dropWhile, ha] at hx
      exact hx

theorem mem_takeWhile_pred {α : Type} (p : α → Bool) (l : List α) :
    ∀ x ∈ l.takeWhile p, p x = true := by
  induction l with
  | nil => intro x hx; cases hx
  | cons a t ih =>
    intro x hx
    by_cases ha : p a = true
    · simp only [List.takeWhile, ha] at hx
      rcases List.mem_cons.mp hx with rfl | hx'
      · exact ha
      · exact ih x hx'
    · simp only [Bool.not_eq_true] at ha
      simp only [List.takeWhile, ha] at hx
      cases hx

theorem mem_stripSpaces_mem (l : List Nat) : ∀ x ∈ stripSpaces l, x ∈ l := by
  intro x hx
  simp only [stripSpaces, List.mem_reverse] at hx
  have hx2 := mem_dropWhile_mem _ _ _ hx
  simp only [List.mem_reverse] at hx2
  exact mem_dropWhile_mem _ _ _ hx2

theorem mem_collapseRuns (l : List Nat) :
    ∀ c ∈ collapseRuns l, c = 45 ∨ (c ∈ l ∧ isDashOrSpaceCp c = false) := by
  induction l with
  | nil => intro c hc; cases hc
  | cons a rest ih =>
    intro c hc
    by_cases ha : isDashOrSpaceCp a = true
    · simp only [collapseRuns, ha, if_true] at hc
      have hc' : c = 45 ∨ c ∈ collapseRuns rest := by
        by_cases hh : (collapseRuns rest).head? == some 45
        · simp only [hh, if_true] at hc
          right; exact hc
        · simp only [hh, if_false] at hc
          rcases List.mem_cons.mp hc with rfl | h
          · left; rfl
          · right; exact h
      rcases hc' with rfl | hmem
      · left; rfl
      · rcases ih c hmem with rfl | ⟨hin, hnd⟩
        · left; rfl
        · right; exact ⟨List.mem_cons_of_mem _ hin, hnd⟩
    · simp only [Bool.not_eq_true] at ha
      simp only [collapseRuns, ha, Bool.false_eq_true, if_false] at hc
      rcases List.mem_cons.mp hc with rfl | h
      · right; exact ⟨List.mem_cons_self _ _, ha⟩
      · rcases ih c h with rfl | ⟨hin, hnd⟩
        · left; rfl
        · right; exact ⟨List.mem_cons_of_mem _ hin, hnd⟩

theorem slugify_chars (t : List Nat) :
    ∀ c ∈ slugify t, slugAllowed c ∧ isSpaceCp c = false := by
  intro c hc
  rcases mem_collapseRuns _ c hc with rfl | ⟨hmem, hnd⟩
  · exact ⟨Or.inr (Or.inr (Or.inl rfl)), by decide⟩
  · obtain ⟨c0, hc0mem, rfl⟩ := List.mem_map.mp hmem
    have hc0filter := mem_stripSpaces_mem _ _ hc0mem
    have hkeep : keepSlugChar c0 = true := (List.mem_filter.mp hc0filter).2
    simp only [keepSlugChar, isWordCp, isSpaceCp, Bool.or_eq_true, Bool.and_eq_true,
      decide_eq_true_eq, beq_iff_eq] at hkeep
    by_cases hup : 65 ≤ c0 ∧ c0 ≤ 90
    · have hlow : toLowerCp c0 = c0 + 32 := by simp [toLowerCp, hup]
      rw [hlow]
      constructor
      · simp only [slugAllowed]; omega
      · simp only [isSpaceCp, Bool.or_eq_false_iff, beq_eq_false_iff_ne]; omega
    · have hlow : toLowerCp c0 = c0 := by simp [toLowerCp, hup]
      rw [hlow] at hnd ⊢
      simp only [isDashOrSpaceCp, isSpaceCp, Bool.or_eq_false_iff,
        beq_eq_false_iff_ne] at hnd
      constructor
      · simp only [slugAllowed]; omega
      · simp only [isSpaceCp, Bool.or_eq_false_iff, beq_eq_false_iff_ne]; omega

/-! ### Claim C8 -/

/-- C8, counterexample.  The title `"a_b"` (code points 97, 95, 98)
slugifies to itself: underscore (code point 95) is a `\w` character and
survives, so `Image.filename` contains a character outside `[a-z0-9-]`
even before any extension is appended. -/
theorem spec_C8_cex :
    imageFilename [97, 95, 98] [] = [97, 95, 98]
    ∧ 95 ∈ imageFilename [97, 95, 98] []
    ∧ ¬ ((97 ≤ 95 ∧ 95 ≤ 122) ∨ (48 ≤ 95 ∧ 95 ≤ 57) ∨ 95 = 45) :=
  ⟨by decide, by decide, by decide⟩

/-- C8, amended.  For every title, the slug part of `Image.filename`
contains no whitespace and no character outside `[a-z0-9_-]`
(underscore included, since `\w` retains it); the remainder of the
filename is a single extension introduced by one dot taken from the
URL path (empty when the path has no dot), containing no further
dot. -/
theorem spec_C8_amended (title urlPath : List Nat) :
    (∀ c ∈ slugify (displayTitle title), slugAllowed c ∧ isSpaceCp c = false)
    ∧ imageFilename title urlPath = slugify (displayTitle title) ++ extTail urlPath
    ∧ (extTail urlPath = []
        ∨ ((extTail urlPath).head? = some 46 ∧ ∀ c ∈ (extTail urlPath).tail, c ≠ 46)) := by
  refine ⟨slugify_chars _, ?_, ?_⟩
  · by_cases h : 46 ∈ urlPath <;> simp [imageFilename, extTail, h]
  · by_cases h : 46 ∈ urlPath
    · right
      refine ⟨by simp [extTail, h], ?_⟩
      intro c hc
      simp [extTail, h, extAfterLastDot] at hc
      have := mem_takeWhile_pred _ _ _ hc
      simpa using this
    · left; simp [extTail, h]

/-! ## The Imgur loader (`background/imgur/imgur_loader.py`, lines 15-44)

`requests.get` and `response.json()` are modelled by an abstract HTTP
outcome: a transport-level exception, or a response carrying a status
code and an optional parsed payload (`none` standing for a body that
`response.json()` fails to parse).  `Except Unit` models a raised
exception propagating to the caller.  The in-place `thumbnail_link`
augmentation of returned entries (a pure string transform that affects
neither the length of the result nor exception behaviour) is not
modelled. -/

structure ImgurImage where
  link : String := ""
  thumbnailLink : String := ""
deriving DecidableEq

structure ImgurPayload where
  success : Bool
  images : List ImgurImage := []
  single : ImgurImage := {}
deriving DecidableEq

inductive HttpOutcome where
  | transportError
  | response (status : Nat) (body : Option ImgurPayload)
deriving DecidableEq

/-- `ImgurWallpaper.request_from_api` (lines 15-23): a transport error
from `requests.get` propagates; a 200 response is parsed by
`response.json()` (which raises on a malformed body); any other status
returns `None`. -/
def requestFromApi : HttpOutcome → Except Unit (Option ImgurPayload)
  | .transportError => .error ()
  | .response status body =>
    if status == 200 then
      match body with
      | some payload => .ok (some payload)
      | none => .error ()
    else .ok none

/-- `ImgurWallpaper.load_imgur_album` (lines 25-35): one entry per album
image when the payload reports success, `[]` otherwise; exceptions from
`request_from_api` propagate. -/
def loadImgurAlbum (o : HttpOutcome) : Except Unit (List ImgurImage) :=
  match requestFromApi o with
  | .error e => .error e
  | .ok none => .ok []
  | .ok (some payload) => if payload.success then .ok payload.images else .ok []

/-- `ImgurWallpaper.load_from_api` (lines 37-44): the payload's data
when it reports success, `None` otherwise; exceptions propagate. -/
def loadFromApi (o : HttpOutcome) : Except Unit (Option ImgurImage) :=
  match requestFromApi o with
  | .error e => .error e
  | .ok none => .ok none
  | .ok (some payload) => if payload.success then .ok (some payload.single) else .ok none

/-! ### Claim C9 -/

/-- C9, counterexample.  The claim says the resolvers fail softly on
*any* transport or parse error and never raise.  A transport-level
error from `requests.get` is not caught anywhere in
`imgur_loader.py`, and neither is a `response.json()` parse error on a
200 response: both propagate to the caller (the per-post worker in
`Subreddit.fetch_images` is what eventually absorbs them). -/
theorem spec_C9_cex :
    loadImgurAlbum HttpOutcome.transportError = Except.error ()
    ∧ loadFromApi HttpOutcome.transportError = Except.error ()
    ∧ loadImgurAlbum (HttpOutcome.response 200 none) = Except.error ()
    ∧ loadFromApi (HttpOutcome.response 200 none) = Except.error () :=
  ⟨rfl, rfl, rfl, rfl⟩

/-- C9, amended.  The resolvers fail softly — album resolver returns
`[]`, single-image resolver returns `None` — on an HTTP response with
a non-200 status, and on a 200 response whose payload reports
`success = false`; a transport-level exception or a JSON parse error,
however, propagates to the caller. -/
theorem spec_C9_amended (status : Nat) (body : Option ImgurPayload) (payload : ImgurPayload)
    (hstatus : status ≠ 200) (hfail : payload.success = false) :
    loadImgurAlbum (HttpOutcome.response status body) = Except.ok []
    ∧ loadFromApi (HttpOutcome.response status body) = Except.ok none
    ∧ loadImgurAlbum (HttpOutcome.response 200 (some payload)) = Except.ok []
    ∧ loadFromApi (HttpOutcome.response 200 (some payload)) = Except.ok none := by
  have hbeq : (status == 200) = false := by simp [hstatus]
  refine ⟨?_, ?_, ?_, ?_⟩ <;>
    simp [loadImgurAlbum, loadFromApi, requestFromApi, hbeq, hfail]

/-- C9 witness: a 404 response and a `success = false` payload are both
handled softly. -/
theorem spec_C9_witness :
    loadImgurAlbum (HttpOutcome.response 404 none) = Except.ok []
    ∧ loadFromApi (HttpOutcome.response 404 none) = Except.ok none
    ∧ loadImgurAlbum (HttpOutcome.response 200 (some { success := false })) = Except.ok []
    ∧ loadFromApi (HttpOutcome.response 200 (some { success := false })) = Except.ok none :=
  spec_C9_amended 404 none { success := false } (by decide) rfl

/-! ## Claim C10: the `url` / `thumbnail_url` accessors (lines 737-743) -/

/-- `str.replace('amp;', '')`: delete every occurrence of the
four-character sequence `amp;`, scanning left to right. -/
def removeAmp : List Char → List Char
  | 'a' :: 'm' :: 'p' :: ';' :: rest => removeAmp rest
  | c :: rest => c :: removeAmp rest
  | [] => []

/-- `Image.url` (lines 737-739). -/
def Image.url (i : Image) : String := String.mk (removeAmp i.urlStored.data)

/-- `Image.thumbnail_url` (lines 741-743). -/
def Image.thumbnailUrl (i : Image) : String := String.mk (removeAmp i.thumbStored.data)

/-- C10.  The public `url` and `thumbnail_url` accessors return the
stored URL with every occurrence of `'amp;'` deleted: this unescapes
`'&amp;'` to `'&'`, but a URL whose path genuinely contains `'amp;'`
is silently altered as well. -/
theorem spec_C10 :
    (∀ i : Image, Image.url i = String.mk (removeAmp i.urlStored.data)
        ∧ Image.thumbnailUrl i = String.mk (removeAmp i.thumbStored.data))
    ∧ Image.url { urlStored := "https://i.redd.it/a.jpg?width=640&amp;format=pjpg" }
        = "https://i.redd.it/a.jpg?width=640&format=pjpg"
    ∧ Image.url { urlStored := "https://example.com/amp;dir/a.jpg" }
        = "https://example.com/dir/a.jpg"
    ∧ Image.url { urlStored := "https://example.com/amp;dir/a.jpg" }
        ≠ "https://example.com/amp;dir/a.jpg" :=
  ⟨fun _ => ⟨rfl, rfl⟩, by decide, by decide, by decide⟩

end RedditBackground
